import Mathlib

/-
Verification of the OTM2 tiler filter-string compiler.

The development shallowly embeds `filterStringToSql.js` (the filter grammar
compiler) and the filter table resolver module.  JavaScript objects parsed
from JSON are modelled by the inductive type `JVal`; JavaScript exceptions
are modelled by `Except String`.  Iteration order over object keys is the
insertion order of the underlying association list, matching the iteration
order of `underscore` over plain JSON-parsed objects.
-/

set_option autoImplicit false

namespace OtmTiler

/-- JSON-like values as produced by parsing the filter text, extended with
`jundefined`, which models the JavaScript `undefined` produced by a missing
property access.  Numbers are modelled as integers (all numeric literals
exercised by the grammar and the test suite are integers). -/
inductive JVal where
  | jnull
  | jundefined
  | jbool (b : Bool)
  | jnum (n : Int)
  | jstr (s : String)
  | jarr (elems : List JVal)
  | jobj (fields : List (String × JVal))

/-- Underscore `_.isNumber`. -/
def jsIsNumber : JVal → Bool
  | .jnum _ => true
  | _ => false

/-- Underscore `_.isObject`: true for objects and also for arrays. -/
def jsIsObject : JVal → Bool
  | .jobj _ => true
  | .jarr _ => true
  | _ => false

/-- Underscore `_.isArray`. -/
def jsIsArray : JVal → Bool
  | .jarr _ => true
  | _ => false

/-- JavaScript truthiness of a `JVal` (`NaN` is not modelled). -/
def jsTruthy : JVal → Bool
  | .jnull => false
  | .jundefined => false
  | .jbool b => b
  | .jnum n => n != 0
  | .jstr s => s ≠ ""
  | .jarr _ => true
  | .jobj _ => true

mutual

/-- JavaScript string coercion of a value, as used when a value is
concatenated into an error message. -/
def jvalDisplay : JVal → String
  | .jnull => "null"
  | .jundefined => "undefined"
  | .jbool b => cond b "true" "false"
  | .jnum n => toString n
  | .jstr s => s
  | .jarr elems => String.intercalate "," (jvalDisplayList elems)
  | .jobj _ => "[object Object]"

/-- Element-wise display for `Array.prototype.toString`; `null` and
`undefined` elements display as the empty string. -/
def jvalDisplayList : List JVal → List String
  | [] => []
  | .jnull :: rest => "" :: jvalDisplayList rest
  | .jundefined :: rest => "" :: jvalDisplayList rest
  | v :: rest => jvalDisplay v :: jvalDisplayList rest

end

/-- JavaScript regexp class `\w`: ASCII letters, ASCII digits and underscore. -/
def isJsWordChar (c : Char) : Bool :=
  c.isAlphanum || c = '_'

/-- JavaScript regexp class `\s`: the whitespace and line-terminator
characters matched by the JavaScript engine. -/
def isJsWhitespace (c : Char) : Bool :=
  c = ' ' || c = '\t' || c = '\n' || c = '\x0b' || c = '\x0c' || c = '\r' ||
  c = '\u00A0' || c = '\u1680' || ('\u2000' ≤ c && c ≤ '\u200A') ||
  c = '\u2028' || c = '\u2029' || c = '\u202F' || c = '\u205F' ||
  c = '\u3000' || c = '\uFEFF'

/-- Character class `[\w\s;]` from the sanitizer regexp. -/
def isSanitizerRunChar (c : Char) : Bool :=
  isJsWordChar c || isJsWhitespace c || c = ';'

/-- Core of `sanitizeSqlString`: the replace of the regexp /;[\w\s;]*$/ by the empty string.  The
regexp matches at the leftmost `;` whose entire remaining suffix consists of
word characters, whitespace and semicolons, and the match necessarily
extends to the end of the string; the replacement drops that suffix. -/
def sanitizeChars : List Char → List Char
  | [] => []
  | c :: cs =>
    if c = ';' && cs.all isSanitizerRunChar then []
    else c :: sanitizeChars cs

/-- Function `sanitizeSqlString` strips a trailing injected statement, e.g. turning
`value = 4; DROP TABLE FOO;` style values into their prefix. -/
def sanitizeSqlString (s : String) : String :=
  ⟨sanitizeChars s.data⟩

/-- JavaScript string replace with a plain (non-regexp) single-quote pattern
and a doubled-quote replacement: only the first occurrence of the
single-quote character is doubled. -/
def replaceQuoteOnce : List Char → List Char
  | [] => []
  | c :: cs =>
    if c = '\x27' then '\x27' :: '\x27' :: cs
    else c :: replaceQuoteOnce cs

/-- String-level wrapper around `replaceQuoteOnce`. -/
def escapeSingleQuote (s : String) : String :=
  ⟨replaceQuoteOnce s.data⟩

/-- Modelled from the spec: `isDateTimeString` delegates to the external
`moment` library (a moment parse against the format "YYYY-MM-DD HH:mm:ss" tested for validity), which
is not part of this repository.  Section 4.7 of the spec pins its observable
behaviour, corroborated by the repository test suite: only a full
`YYYY-MM-DD HH:mm:ss` or `YYYY-MM-DDTHH:mm:ss` match is treated as a
datetime; a bare date or a 12-hour clock time is not. -/
def isDateTimeString (s : String) : Bool :=
  match s.data with
  | [y1, y2, y3, y4, '-', mo1, mo2, '-', d1, d2, sep,
     h1, h2, ':', mi1, mi2, ':', s1, s2] =>
    (sep = ' ' || sep = 'T') &&
      [y1, y2, y3, y4, mo1, mo2, d1, d2, h1, h2, mi1, mi2, s1, s2].all Char.isDigit
  | _ => false

/-- Modelled from the spec: `dateTimeStringToSqlValue` reformats a
recognized datetime through the external `moment` library.  For the strings
recognized by `isDateTimeString` the date part is the first ten characters
and the time part the last eight, yielding the
documented literal of the form (DATE "YYYY-MM-DD" + TIME "HH:mm:ss"),
with the double quotes standing for single quotes. -/
def dateTimeStringToSqlValue (dtString : String) : String :=
  "(DATE \x27" ++ (⟨dtString.data.take 10⟩ : String) ++
    "\x27 + TIME \x27" ++ (⟨dtString.data.drop 11⟩ : String) ++ "\x27)"

/-- Function `convertValueToEscapedSqlLiteral`: numbers pass through unquoted,
recognized datetimes become date-time literals, and all other strings are
sanitized and wrapped in single quotes with the first-occurrence quote
replacement applied.
Values outside the grammar (booleans, null, undefined, arrays, objects)
reach `value.replace`, which is not a function on them; this raises a
`TypeError`. -/
def convertValueToEscapedSqlLiteral (value : JVal) : Except String String :=
  match value with
  | .jnum n => .ok (toString n)
  | .jstr s =>
    if isDateTimeString s then .ok (dateTimeStringToSqlValue s)
    else .ok ("\x27" ++ escapeSingleQuote (sanitizeSqlString s) ++ "\x27")
  | _ => .error "TypeError: value.replace is not a function"

/-- Element-wise mapping with exception propagation: underscore `_.map`
applies the callback left to right, and a raised exception aborts the whole
traversal at the first failing element. -/
def mapExcept {α β : Type} (g : α → Except String β) : List α → Except String (List β)
  | [] => .ok []
  | x :: xs =>
    match g x with
    | .error e => .error e
    | .ok y =>
      match mapExcept g xs with
      | .error e => .error e
      | .ok ys => .ok (y :: ys)

/-- Function `convertValuesToEscapedSqlLiterals`: element-wise scalar conversion. -/
def convertValuesToEscapedSqlLiterals (values : List JVal) :
    Except String (List String) :=
  mapExcept convertValueToEscapedSqlLiteral values

/-- Function `convertArrayValueToEscapedSqlLiteral`: converts each element and joins
them into a parenthesized comma-separated list for an `IN` clause; throws on
a non-array argument. -/
def convertArrayValueToEscapedSqlLiteral (arrayValue : JVal) :
    Except String String :=
  match arrayValue with
  | .jarr elems =>
    (convertValuesToEscapedSqlLiterals elems).map
      (fun lits => "(" ++ String.intercalate "," lits ++ ")")
  | _ => .error "Non-array passed to convertArrayValueToEscapedSqlLiteral"

/-- The `MODEL_MAPPING` whitelist keys, in declaration order. -/
def MODEL_MAPPING_KEYS : List String := ["plot", "tree"]

/-- The `MODEL_MAPPING` dictionary: short model name to physical table. -/
def MODEL_MAPPING (model : String) : Option String :=
  if model = "plot" then some "treemap_plot"
  else if model = "tree" then some "treemap_tree"
  else none

/-- Splitting a character list at every dot, with the JavaScript
`String.prototype.split` semantics: the result always has one part more
than the number of dots, and empty parts are kept. -/
def splitOnDotChars : List Char → List (List Char)
  | [] => [[]]
  | c :: cs =>
    if c = '.' then [] :: splitOnDotChars cs
    else
      match splitOnDotChars cs with
      | [] => [[c]]
      | p :: ps => (c :: p) :: ps

/-- JavaScript `fieldName.split('.')`. -/
def jsSplitDot (s : String) : List String :=
  (splitOnDotChars s.data).map (fun l => ⟨l⟩)

/-- Error text for a field name that does not split into exactly two parts. -/
def fieldNameArityError (fieldName : String) : String :=
  "Field names in predicate objects should be of the form \"model.field\", not \"" ++
    fieldName ++ "\""

/-- Error text for a model name outside the whitelist. -/
def modelNameError (model : String) : String :=
  "The model name must be one of the following: " ++
    String.intercalate ", " MODEL_MAPPING_KEYS ++ ". Not " ++ model

/-- Function `fieldNameToColumnName`: the JavaScript split on the dot character splits at every dot, and
the result must have exactly two parts; the model part must be whitelisted
and the column part is sanitized.  The source repeats the whitelist check
after the sanitization; the repeated check can never fire. -/
def fieldNameToColumnName (fieldName : String) : Except String String :=
  match jsSplitDot fieldName with
  | [modelName, columnPart] =>
    match MODEL_MAPPING modelName with
    | none => .error (modelNameError modelName)
    | some model =>
      let column := sanitizeSqlString columnPart
      match MODEL_MAPPING modelName with
      | none => .error (modelNameError modelName)
      | some _ => .ok ("\"" ++ model ++ "\".\"" ++ column ++ "\"")
  | _ => .error (fieldNameArityError fieldName)

/-- Per-key record of the `PREDICATE_TYPES` dictionary. -/
structure PredicateType where
  combinesWith : List String
  matcher : String
  exclusiveMatcher : Option String
  valueConverter : JVal → Except String String

/-- The `PREDICATE_TYPES` keys, in declaration order. -/
def PREDICATE_KEYS : List String := ["IS", "IN", "LIKE", "MIN", "MAX"]

/-- The `PREDICATE_TYPES` dictionary. -/
def PREDICATE_TYPES (key : String) : Option PredicateType :=
  if key = "IS" then
    some ⟨[], "=", none, convertValueToEscapedSqlLiteral⟩
  else if key = "IN" then
    some ⟨[], "IN", none, convertArrayValueToEscapedSqlLiteral⟩
  else if key = "LIKE" then
    some ⟨[], "ILIKE", none, convertValueToEscapedSqlLiteral⟩
  else if key = "MIN" then
    some ⟨["MAX"], ">=", some ">", convertValueToEscapedSqlLiteral⟩
  else if key = "MAX" then
    some ⟨["MIN"], "<=", some "<", convertValueToEscapedSqlLiteral⟩
  else none

/-- Error text for an unsupported predicate key. -/
def predicateKeysError (key : String) : String :=
  "Predicates support the following keys: " ++
    String.intercalate "," PREDICATE_KEYS ++ " not " ++ key

/-- Error text for an invalid key combination. -/
def predicateCombinationError (keys : List String) (key : String)
    (combinesWith : List String) : String :=
  "A predicate with keys " ++ String.intercalate "," keys ++
    " is not valid because the predicate key " ++ key ++
    " can only be combined with the following keys: " ++
    String.intercalate "," combinesWith

/-- Validation of one key of a predicate against the full key list: the key
must be supported, and every other key present must either equal it or
appear in its combinability whitelist. -/
def validateKey (keys : List String) (key : String) : Except String Unit :=
  match PREDICATE_TYPES key with
  | none => .error (predicateKeysError key)
  | some t =>
    if keys.all (fun otherKey => key == otherKey || t.combinesWith.contains otherKey) then
      .ok ()
    else
      .error (predicateCombinationError keys key t.combinesWith)

/-- Iteration of `validateKey` over every key, stopping at the first error
(the source iterates with an exception-raising callback). -/
def validateKeys (keys : List String) : List String → Except String Unit
  | [] => .ok ()
  | k :: rest =>
    match validateKey keys k with
    | .error e => .error e
    | .ok _ => validateKeys keys rest

/-- Model of `Object.keys` for the values that can reach `validatePredicate`: field
names in insertion order for an object, index strings for an array. -/
def objectKeys : JVal → List String
  | .jobj fields => fields.map Prod.fst
  | .jarr elems => (List.range elems.length).map (fun i => toString i)
  | _ => []

/-- Function `validatePredicate`: a predicate must be an object (`_.isObject`, which
also admits arrays), and each key must be supported and combinable with
every other key present. -/
def validatePredicate (predicate : JVal) : Except String Unit :=
  match predicate with
  | .jobj _ | .jarr _ =>
    validateKeys (objectKeys predicate) (objectKeys predicate)
  | _ => .error "Predicates must be objects"

/-- JavaScript property access `fields.key`, yielding `undefined` when the
key is absent. -/
def lookupField (fields : List (String × JVal)) (key : String) : JVal :=
  match fields.find? (fun p => p.1 == key) with
  | some p => p.2
  | none => .jundefined

/-- Function `predicateValueAndTypeToFilterObject`: chooses the matcher (switching to
the exclusive matcher when the value is a record whose `EXCLUSIVE` property
is truthy; a key with no exclusive matcher would yield the string
`undefined`, as JavaScript concatenation of `undefined` does) and converts
the value.  The guard `_.isObject(v) && !_.isArray(v)` holds exactly for the
`jobj` case. -/
def predicateValueAndTypeToFilterObject (predicateValue : JVal)
    (predicateType : String) : Except String (String × String) :=
  match PREDICATE_TYPES predicateType with
  | none => .error ("TypeError: cannot read the properties of undefined key " ++ predicateType)
  | some t =>
    match predicateValue with
    | .jobj fields =>
      let matcher :=
        if jsTruthy (lookupField fields "EXCLUSIVE") then
          t.exclusiveMatcher.getD "undefined"
        else t.matcher
      (t.valueConverter (lookupField fields "value")).map (fun v => (matcher, v))
    | _ =>
      (t.valueConverter predicateValue).map (fun v => (t.matcher, v))

/-- Function `predicateToFilterObjects`: validates and then maps each key of the
predicate to a `(matcher, literal)` pair.  Underscore `_.map` over an array
or a non-object yields pairs only for object fields; the only such value
that survives validation with keys is an object, and an empty array maps to
the empty list. -/
def predicateToFilterObjects (predicate : JVal) :
    Except String (List (String × String)) :=
  match validatePredicate predicate with
  | .error e => .error e
  | .ok _ =>
    match predicate with
    | .jobj fields =>
      mapExcept (fun f => predicateValueAndTypeToFilterObject f.2 f.1) fields
    | _ => .ok []

/-- Function `fieldNameAndPredicateToSql`: resolves the column, compiles the
predicate to `(matcher, literal)` pairs, renders each as
`column matcher literal`, joins with `AND` and parenthesizes. -/
def fieldNameAndPredicateToSql (fieldName : String) (predicate : JVal) :
    Except String String :=
  match fieldNameToColumnName fieldName with
  | .error e => .error e
  | .ok columnName =>
    match predicateToFilterObjects predicate with
    | .error e => .error e
    | .ok filters =>
      let filterStatements :=
        filters.map (fun f => columnName ++ " " ++ f.1 ++ " " ++ f.2)
      .ok ("(" ++ String.intercalate " AND " filterStatements ++ ")")

/-- Function `objectToSql`: compiles each field of a predicate set, treating a
non-object value as shorthand for an `IS` predicate, and joins the
per-field clauses with `AND`. -/
def objectToSql (o : List (String × JVal)) : Except String String :=
  match mapExcept (fun entry =>
      let predicate :=
        if jsIsObject entry.2 then entry.2
        else JVal.jobj [("IS", entry.2)]
      fieldNameAndPredicateToSql entry.1 predicate) o with
  | .error e => .error e
  | .ok statements => .ok (String.intercalate " AND " statements)

mutual

/-- Function `filterToSql`: dispatches on the shape of the filter. -/
def filterToSql : JVal → Except String String
  | .jarr a => arrayToSql a
  | .jobj o => objectToSql o
  | _ => .error "A filter must be an Object or an Array"

/-- Function `arrayToSql`: the first element must be the string `AND` or `OR`; the
remaining elements are compiled recursively, joined with the operator and
wrapped in one parenthesis pair. -/
def arrayToSql : List JVal → Except String String
  | [] => .error "An empty array is not a valid combinator"
  | op :: rest =>
    match op with
    | .jstr s =>
      if s = "AND" || s = "OR" then
        (filtersToSql rest).map (fun statements =>
          "(" ++ String.intercalate (" " ++ s ++ " ") statements ++ ")")
      else
        .error ("The first element of a combinator array must be \"AND\" or \"OR\", not " ++ s)
    | v =>
      .error ("The first element of a combinator array must be \"AND\" or \"OR\", not " ++
        jvalDisplay v)

/-- Compilation of the tail of a combinator array, element by element,
stopping at the first error. -/
def filtersToSql : List JVal → Except String (List String)
  | [] => .ok []
  | f :: fs =>
    match filterToSql f with
    | .error e => .error e
    | .ok s =>
      match filtersToSql fs with
      | .error e => .error e
      | .ok ss => .ok (s :: ss)

end

/-- The two join-table sets from the resolver configuration
(`config.sqlForPlots.tables.tree` and `config.sqlForPlots.tables.plot`).
The configuration file is host-application data external to the compiler
core, so the two sets are modelled as opaque distinct values. -/
inductive TableSet where
  | treeTables
  | plotTables
  deriving DecidableEq

/-- A JavaScript string argument, which may also be `undefined` or `null`. -/
inductive JsArg where
  | undef
  | null
  | str (s : String)

/-- JavaScript falsiness of a string argument: `undefined`, `null` and the
empty string are falsy. -/
def jsArgFalsy : JsArg → Bool
  | .undef => true
  | .null => true
  | .str s => s = ""

/-- JavaScript string coercion of the argument, as applied by a callee that
expects a string. -/
def jsArgString : JsArg → String
  | .undef => "undefined"
  | .null => "null"
  | .str s => s

/-- Search of the regexp `/(tree\.|species\.)/`: succeeds exactly when the
text contains the substring `tree.` or the substring `species.` starting at
some position. -/
def treeRegexAccepts : List Char → Bool
  | [] => false
  | c :: cs =>
    "tree.".data.isPrefixOf (c :: cs) || "species.".data.isPrefixOf (c :: cs) ||
      treeRegexAccepts cs

/-- Error text of the resolver for falsy input. -/
def nullFilterError : String :=
  "A null, undefined, or empty filter string cannot be converted to SQL"

/-- The filter-table resolver module: throws on falsy input, and otherwise
chooses the join-table set by a raw substring test on the filter text. -/
def resolveFilterTables : JsArg → Except String TableSet
  | .undef => .error nullFilterError
  | .null => .error nullFilterError
  | .str t =>
    if t = "" then .error nullFilterError
    else if treeRegexAccepts t.data then .ok .treeTables
    else .ok .plotTables

/-- Skip JSON whitespace. -/
def skipWs : List Char → List Char
  | [] => []
  | c :: cs =>
    if c = ' ' || c = '\t' || c = '\n' || c = '\r' then skipWs cs else c :: cs

/-- Leading decimal digits of the input, with the remainder. -/
def spanDigits : List Char → (List Char × List Char)
  | [] => ([], [])
  | c :: cs =>
    if c.isDigit then
      let r := spanDigits cs
      (c :: r.1, r.2)
    else ([], c :: cs)

/-- Numeric value of a list of decimal digits. -/
def digitsToNat (ds : List Char) : Nat :=
  ds.foldl (fun a c => a * 10 + (c.toNat - 48)) 0

/-- Value of a hexadecimal digit, if any. -/
def hexDigitToNat (c : Char) : Option Nat :=
  if c.isDigit then some (c.toNat - 48)
  else if 'a' ≤ c && c ≤ 'f' then some (c.toNat - 87)
  else if 'A' ≤ c && c ≤ 'F' then some (c.toNat - 55)
  else none

/-- Parse the body of a JSON string literal, after the opening quote, up to
and including the closing quote. -/
def parseJsonString : List Char → Except String (List Char × List Char)
  | [] => .error "Unexpected end of JSON input"
  | c :: cs =>
    if c = '"' then .ok ([], cs)
    else if c = '\\' then
      match cs with
      | [] => .error "Unexpected end of JSON input"
      | e :: cs2 =>
        if e = 'u' then
          match cs2 with
          | h1 :: h2 :: h3 :: h4 :: cs3 =>
            match hexDigitToNat h1, hexDigitToNat h2, hexDigitToNat h3, hexDigitToNat h4 with
            | some a, some b, some d, some g =>
              (parseJsonString cs3).map
                (fun r => (Char.ofNat (((a * 16 + b) * 16 + d) * 16 + g) :: r.1, r.2))
            | _, _, _, _ => .error "Bad Unicode escape in JSON"
          | _ => .error "Unexpected end of JSON input"
        else
          match
            (if e = '"' then some '"'
             else if e = '\\' then some '\\'
             else if e = '/' then some '/'
             else if e = 'b' then some '\x08'
             else if e = 'f' then some '\x0c'
             else if e = 'n' then some '\n'
             else if e = 'r' then some '\r'
             else if e = 't' then some '\t'
             else none) with
          | some d => (parseJsonString cs2).map (fun r => (d :: r.1, r.2))
          | none => .error "Bad escaped character in JSON"
    else
      (parseJsonString cs).map (fun r => (c :: r.1, r.2))

/-- Parse a JSON number starting at the current position.  Number literals
are modelled for integers only; the grammar and test suite of this
repository use no fractional or exponent literals. -/
def parseJsonNumber (cs : List Char) : Except String (JVal × List Char) :=
  let signed := match cs with
    | '-' :: t => (true, t)
    | _ => (false, cs)
  let r := spanDigits signed.2
  if r.1 = [] then .error "Unexpected token in JSON"
  else
    match r.2 with
    | '.' :: _ => .error "non-integral number literals are not modelled"
    | 'e' :: _ => .error "non-integral number literals are not modelled"
    | 'E' :: _ => .error "non-integral number literals are not modelled"
    | rest =>
      let n : Int := Int.ofNat (digitsToNat r.1)
      .ok (.jnum (if signed.1 then -n else n), rest)

mutual

/-- Fuel-based recursive-descent parser for one JSON value.  The fuel
strictly decreases on every recursive call; `parseJson` supplies enough fuel
for any input of the given length. -/
def parseJsonValue : Nat → List Char → Except String (JVal × List Char)
  | 0, _ => .error "JSON input too deeply nested"
  | fuel + 1, cs =>
    match skipWs cs with
    | [] => .error "Unexpected end of JSON input"
    | c :: rest =>
      if c = 'n' then
        if "ull".data.isPrefixOf rest then .ok (.jnull, rest.drop 3)
        else .error "Unexpected token in JSON"
      else if c = 't' then
        if "rue".data.isPrefixOf rest then .ok (.jbool true, rest.drop 3)
        else .error "Unexpected token in JSON"
      else if c = 'f' then
        if "alse".data.isPrefixOf rest then .ok (.jbool false, rest.drop 4)
        else .error "Unexpected token in JSON"
      else if c = '"' then
        (parseJsonString rest).map (fun r => (.jstr ⟨r.1⟩, r.2))
      else if c = '[' then
        match skipWs rest with
        | ']' :: rest2 => .ok (.jarr [], rest2)
        | rest2 => (parseJsonElems fuel rest2).map (fun r => (.jarr r.1, r.2))
      else if c = '\x7b' then
        match skipWs rest with
        | '\x7d' :: rest2 => .ok (.jobj [], rest2)
        | rest2 => (parseJsonMembers fuel rest2).map (fun r => (.jobj r.1, r.2))
      else if c = '-' || c.isDigit then
        parseJsonNumber (c :: rest)
      else .error "Unexpected token in JSON"

/-- Parse the comma-separated elements of a non-empty JSON array, up to and
including the closing bracket. -/
def parseJsonElems : Nat → List Char → Except String (List JVal × List Char)
  | 0, _ => .error "JSON input too deeply nested"
  | fuel + 1, cs => do
    let (v, cs2) ← parseJsonValue fuel cs
    match skipWs cs2 with
    | ',' :: cs3 =>
      (parseJsonElems fuel cs3).map (fun r => (v :: r.1, r.2))
    | ']' :: cs3 => .ok ([v], cs3)
    | _ => .error "Expected comma or closing bracket in JSON array"

/-- Parse the comma-separated members of a non-empty JSON object, up to and
including the closing brace. -/
def parseJsonMembers : Nat → List Char →
    Except String (List (String × JVal) × List Char)
  | 0, _ => .error "JSON input too deeply nested"
  | fuel + 1, cs =>
    match skipWs cs with
    | '"' :: cs1 => do
      let (key, cs2) ← parseJsonString cs1
      match skipWs cs2 with
      | ':' :: cs3 => do
        let (v, cs4) ← parseJsonValue fuel cs3
        match skipWs cs4 with
        | ',' :: cs5 =>
          (parseJsonMembers fuel cs5).map (fun r => ((⟨key⟩, v) :: r.1, r.2))
        | '\x7d' :: cs5 => .ok ([(⟨key⟩, v)], cs5)
        | _ => .error "Expected comma or closing brace in JSON object"
      | _ => .error "Expected colon in JSON object"
    | _ => .error "Expected string key in JSON object"

end

/-- Model of `JSON.parse`, modelled for the integer-literal fragment of JSON used by
the filter grammar: parse one value and require only whitespace after it. -/
def parseJson (t : String) : Except String JVal := do
  let (v, rest) ← parseJsonValue (t.length + 16) t.data
  match skipWs rest with
  | [] => .ok v
  | _ => .error "Unexpected non-whitespace character after JSON"

/-- Top-level export of the compiler module: falsy input compiles to the
empty string; any other input is parsed as JSON and compiled by
`filterToSql`. -/
def filterStringToSql (s : JsArg) : Except String String :=
  if jsArgFalsy s then .ok ""
  else (parseJson (jsArgString s)).bind filterToSql

/-- Test that no position of the text starts a match of the sanitizer
regexp: no semicolon is followed exclusively by word characters, whitespace
and semicolons up to the end.  Characterizes the strings on which the
sanitizer makes no change, and the prefixes before the leftmost match. -/
def noQualifyingSemicolon : List Char → Bool
  | [] => true
  | c :: cs =>
    (!(c = ';' && cs.all isSanitizerRunChar)) && noQualifyingSemicolon cs

/-! ## Helper lemmas -/

/-- A string containing a semicolon is never recognized as a datetime: every
character of the datetime shape is a digit or one of the separators. -/
theorem isDateTimeString_eq_false_of_semicolon (s : String) (h : ';' ∈ s.data) :
    isDateTimeString s = false := by
  unfold isDateTimeString
  split
  · rename_i heq
    rw [heq] at h
    by_contra hb
    simp only [Bool.not_eq_false, Bool.and_eq_true, Bool.or_eq_true,
      decide_eq_true_eq, List.all_eq_true] at hb
    obtain ⟨hsep, hdig⟩ := hb
    simp only [List.mem_cons, List.not_mem_nil, or_false] at h
    rcases h with h|h|h|h|h|h|h|h|h|h|h|h|h|h|h|h|h|h|h <;>
      first
        | exact absurd h (by decide)
        | (subst h; rcases hsep with h2|h2 <;> exact absurd h2 (by decide))
        | (subst h; exact absurd (hdig ';' (by simp)) (by decide))
  · rfl

/-- The sanitizer truncates at the shown semicolon when its suffix consists
of word characters, whitespace and semicolons and no earlier semicolon
qualifies, keeping the prefix before it. -/
theorem sanitizeChars_append_semicolon (u v : List Char)
    (hv : v.all isSanitizerRunChar = true)
    (hu : noQualifyingSemicolon u = true) :
    sanitizeChars (u ++ ';' :: v) = u := by
  induction u with
  | nil =>
    simp only [List.nil_append]
    rw [sanitizeChars, if_pos]
    simp [hv]
  | cons c cs ih =>
    rw [noQualifyingSemicolon, Bool.and_eq_true] at hu
    simp only [List.cons_append]
    rw [sanitizeChars, if_neg]
    · exact congrArg (c :: ·) (ih hu.2)
    · intro hcond
      simp only [Bool.and_eq_true, decide_eq_true_eq, List.all_append,
        List.all_cons] at hcond
      obtain ⟨hc, hcs, -⟩ := hcond
      subst hc
      simp [hcs] at hu

/-- A text with no qualifying semicolon passes the sanitizer unchanged. -/
theorem sanitizeChars_eq_self (l : List Char)
    (h : noQualifyingSemicolon l = true) :
    sanitizeChars l = l := by
  induction l with
  | nil => rfl
  | cons c cs ih =>
    rw [noQualifyingSemicolon, Bool.and_eq_true] at h
    rw [sanitizeChars, if_neg]
    · exact congrArg (c :: ·) (ih h.2)
    · intro hcond
      obtain ⟨h1, -⟩ := h
      rw [hcond] at h1
      simp at h1

/-- One-step join: intercalating a singleton list is the identity. -/
theorem string_intercalate_singleton (sep x : String) :
    String.intercalate sep [x] = x := rfl

/-! ## Claim theorems -/

/-- C1: the claim states that every internal single quote of a plain string
value is doubled in the compiled literal.  The source calls
`String.prototype.replace` with a plain string pattern, which replaces only
the first occurrence: the value with two internal quotes compiles to a
literal in which only the first quote is doubled, not the claimed literal
with both quotes doubled. -/
theorem convertValue_doubles_only_first_quote :
    convertValueToEscapedSqlLiteral (.jstr "a\x27b\x27c") = .ok "\x27a\x27\x27b\x27c\x27" ∧
    ("\x27a\x27\x27b\x27c\x27" : String) ≠ "\x27a\x27\x27b\x27\x27c\x27" :=
  ⟨by rfl, by decide⟩

/-- C2 counterexample: the claim states that for any string value containing
a semicolon followed by anything, the compiled literal contains only the
prefix before the first semicolon.  The sanitizer regexp only fires on a
semicolon whose entire suffix consists of word, whitespace and semicolon
characters: the value with a dash after the semicolon compiles unchanged,
not to the claimed truncated literal. -/
theorem convertValue_keeps_semicolon_before_dash :
    convertValueToEscapedSqlLiteral (.jstr "a;-b") = .ok "\x27a;-b\x27" ∧
    ("\x27a;-b\x27" : String) ≠ "\x27a\x27" :=
  ⟨by rfl, by decide⟩

/-- C2 (amended): the sanitizer fires exactly on a semicolon whose whole
remaining suffix consists of word characters, whitespace and semicolons.
For a string value containing such a semicolon, the compiled literal
contains only the (quote-escaped) prefix before the leftmost such
semicolon, even when that prefix itself contains earlier, non-qualifying
semicolons; and for a string value whose every semicolon is followed
somewhere by a character outside that class, the value passes the sanitizer
unchanged and the compiled literal keeps the full text. -/
theorem convertValue_strips_trailing_statement :
    (∀ u v : List Char, v.all isSanitizerRunChar = true →
      noQualifyingSemicolon u = true →
      convertValueToEscapedSqlLiteral (.jstr ⟨u ++ ';' :: v⟩) =
        .ok ("\x27" ++ (⟨replaceQuoteOnce u⟩ : String) ++ "\x27")) ∧
    (∀ l : List Char, ';' ∈ l → noQualifyingSemicolon l = true →
      convertValueToEscapedSqlLiteral (.jstr ⟨l⟩) =
        .ok ("\x27" ++ (⟨replaceQuoteOnce l⟩ : String) ++ "\x27")) := by
  constructor
  · intro u v hv hu
    have hdt : isDateTimeString ⟨u ++ ';' :: v⟩ = false :=
      isDateTimeString_eq_false_of_semicolon _ (by show ';' ∈ u ++ ';' :: v; simp)
    have hsan : sanitizeSqlString ⟨u ++ ';' :: v⟩ = ⟨u⟩ :=
      congrArg String.mk (sanitizeChars_append_semicolon u v hv hu)
    simp only [convertValueToEscapedSqlLiteral, hdt, Bool.false_eq_true, if_false,
      hsan, escapeSingleQuote]
  · intro l hl hq
    have hdt : isDateTimeString ⟨l⟩ = false :=
      isDateTimeString_eq_false_of_semicolon ⟨l⟩ hl
    have hsan : sanitizeSqlString ⟨l⟩ = ⟨l⟩ :=
      congrArg String.mk (sanitizeChars_eq_self l hq)
    simp only [convertValueToEscapedSqlLiteral, hdt, Bool.false_eq_true, if_false,
      hsan, escapeSingleQuote]

/-- C2 witness: the repository test vector with an appended statement
compiles to the bare prefix literal, a value whose leftmost semicolon does
not qualify but whose second one does truncates at the second, and the
dash-suffixed value is kept verbatim. -/
theorem convertValue_strips_trailing_statement_witness :
    (" SELECT 1; DROP TABLE treemap_tree;".data.all isSanitizerRunChar = true ∧
      noQualifyingSemicolon "1".data = true ∧
      " DROP TABLE x".data.all isSanitizerRunChar = true ∧
      noQualifyingSemicolon "a;-b".data = true ∧
      (';' : Char) ∈ "a;-b;c-".data ∧ noQualifyingSemicolon "a;-b;c-".data = true) ∧
    convertValueToEscapedSqlLiteral (.jstr "1; SELECT 1; DROP TABLE treemap_tree;") =
      .ok "\x271\x27" ∧
    convertValueToEscapedSqlLiteral (.jstr "a;-b; DROP TABLE x") = .ok "\x27a;-b\x27" ∧
    convertValueToEscapedSqlLiteral (.jstr "a;-b;c-") = .ok "\x27a;-b;c-\x27" :=
  ⟨⟨by decide, by decide, by decide, by decide, by decide, by decide⟩,
    convertValue_strips_trailing_statement.1 "1".data
      " SELECT 1; DROP TABLE treemap_tree;".data (by decide) (by decide),
    convertValue_strips_trailing_statement.1 "a;-b".data
      " DROP TABLE x".data (by decide) (by decide),
    convertValue_strips_trailing_statement.2 "a;-b;c-".data (by decide) (by decide)⟩

/-- C3: a bare date with no time component is not recognized as a datetime
and falls through to plain string handling, while full datetime strings in
either accepted shape are recognized; the example predicate compiles to a
plain quoted string comparison. -/
theorem dateOnly_not_datetime :
    isDateTimeString "2013-07-15" = false ∧
    isDateTimeString "2013-07-15 15:13:01" = true ∧
    isDateTimeString "2013-07-15T15:13:01" = true ∧
    objectToSql [("tree.created", .jobj [("MIN", .jstr "2013-07-15")])] =
      .ok "(\"treemap_tree\".\"created\" >= \x272013-07-15\x27)" :=
  ⟨by rfl, by rfl, by rfl, by rfl⟩

/-- C4 counterexample: the claim states that a field name with more than one
dot resolves, with everything after the first dot as the column.  The source
splits on every dot and demands exactly two parts, so such a name fails with
the arity error instead of resolving. -/
theorem fieldName_multi_dot_errors :
    fieldNameToColumnName "plot.a.b" = .error (fieldNameArityError "plot.a.b") ∧
    (fieldNameToColumnName "plot.a.b").isOk = false :=
  ⟨by rfl, by rfl⟩

/-- The model-whitelist error can never coincide with the arity error: the
two messages start with different characters. -/
theorem modelNameError_ne_fieldNameArityError (m f : String) :
    modelNameError m ≠ fieldNameArityError f := by
  intro h
  have h1 : (modelNameError m).data.head? = some 'T' := rfl
  have h2 : (fieldNameArityError f).data.head? = some 'F' := rfl
  rw [h, h2] at h1
  exact absurd (Option.some.inj h1) (by decide)

/-- C4 (amended): the field name is split on every dot, and resolution
fails with the arity error exactly when the split does not produce two
parts; in particular a name with no dot or with more than one dot is
rejected, and a two-part name never yields the arity error. -/
theorem fieldName_arity_error_iff_split (fieldName : String) :
    fieldNameToColumnName fieldName = .error (fieldNameArityError fieldName) ↔
      (jsSplitDot fieldName).length ≠ 2 := by
  constructor
  · intro h hlen
    obtain ⟨a, b, hs⟩ := List.length_eq_two.mp hlen
    cases hm : MODEL_MAPPING a with
    | none =>
      have hcol : fieldNameToColumnName fieldName = .error (modelNameError a) := by
        simp only [fieldNameToColumnName, hs, hm]
      rw [hcol] at h
      exact modelNameError_ne_fieldNameArityError a fieldName (Except.error.inj h)
    | some model =>
      have hcol : fieldNameToColumnName fieldName =
          .ok ("\"" ++ model ++ "\".\"" ++ sanitizeSqlString b ++ "\"") := by
        simp only [fieldNameToColumnName, hs, hm]
      rw [hcol] at h
      exact Except.noConfusion h
  · intro h
    unfold fieldNameToColumnName
    split
    · rename_i heq
      exact absurd (by rw [heq]; simp : (jsSplitDot fieldName).length = 2) h
    · rfl

/-- C4 witness: the three-part name satisfies the right-hand side and
produces the arity error through the equivalence. -/
theorem fieldName_arity_error_iff_split_witness :
    (jsSplitDot "plot.a.b").length ≠ 2 ∧
    fieldNameToColumnName "plot.a.b" = .error (fieldNameArityError "plot.a.b") :=
  ⟨by decide, (fieldName_arity_error_iff_split "plot.a.b").mpr (by decide)⟩

/-- C5: for a whitelisted model and any value that is not a keyed mapping
(the shorthand case of the grammar), the shorthand filter and the explicit
`IS` filter compile to identical output. -/
theorem shorthand_IS_equivalence (m f : String) (v : JVal)
    (_hm : (MODEL_MAPPING m).isSome = true) (hv : jsIsObject v = false) :
    objectToSql [(m ++ "." ++ f, v)] =
      objectToSql [(m ++ "." ++ f, JVal.jobj [("IS", v)])] := by
  have h2 : jsIsObject (JVal.jobj [("IS", v)]) = true := rfl
  simp [objectToSql, mapExcept, hv, h2]

/-- C5 witness: the numeric shorthand from the repository tests. -/
theorem shorthand_IS_equivalence_witness :
    ((MODEL_MAPPING "tree").isSome = true ∧ jsIsObject (JVal.jnum 1) = false) ∧
    objectToSql [("tree.height", JVal.jnum 1)] =
      objectToSql [("tree.height", JVal.jobj [("IS", JVal.jnum 1)])] :=
  ⟨⟨by decide, by decide⟩,
   shorthand_IS_equivalence "tree" "height" (JVal.jnum 1) (by decide) (by decide)⟩

/-- C7: a combinator array with one inner filter adds exactly one outer
parenthesis pair around the compiled inner clause. -/
theorem combinator_single_filter_double_parens (op : String) (F : JVal) (C : String)
    (hop : op = "AND" ∨ op = "OR") (hF : filterToSql F = .ok C) :
    arrayToSql [JVal.jstr op, F] = .ok ("(" ++ C ++ ")") := by
  have hb : (op = "AND" || op = "OR") = true := by
    rcases hop with rfl | rfl <;> decide
  simp [arrayToSql, hb, filtersToSql, hF, Except.map, string_intercalate_singleton]

/-- C7 witness: the repository test vector, a single-filter `OR`
combinator, compiles with doubled parentheses. -/
theorem combinator_single_filter_double_parens_witness :
    ((("OR" : String) = "AND" ∨ ("OR" : String) = "OR") ∧
      filterToSql (.jobj [("tree.height", .jobj [("MIN", .jnum 1)])]) =
        .ok "(\"treemap_tree\".\"height\" >= 1)") ∧
    arrayToSql [JVal.jstr "OR", .jobj [("tree.height", .jobj [("MIN", .jnum 1)])]] =
      .ok "((\"treemap_tree\".\"height\" >= 1))" :=
  ⟨⟨Or.inr rfl, by rfl⟩,
   combinator_single_filter_double_parens "OR" (.jobj [("tree.height", .jobj [("MIN", .jnum 1)])])
     "(\"treemap_tree\".\"height\" >= 1)" (Or.inr rfl) (by rfl)⟩

/-- The regexp search succeeds exactly when one of the two model prefixes
occurs as a substring of the text. -/
theorem treeRegexAccepts_iff (l : List Char) :
    treeRegexAccepts l = true ↔
      ("tree.".data <:+: l ∨ "species.".data <:+: l) := by
  induction l with
  | nil =>
    rw [treeRegexAccepts]
    simp only [List.infix_nil]
    constructor
    · intro h; exact absurd h (by decide)
    · rintro (h | h) <;> exact absurd h (by decide)
  | cons c cs ih =>
    rw [treeRegexAccepts]
    simp only [Bool.or_eq_true, List.isPrefixOf_iff_prefix, ih]
    rw [List.infix_cons_iff, List.infix_cons_iff]
    tauto

/-- C8: for non-empty filter text, the resolver returns the tree join-table
set exactly when the raw text contains the substring of a tree or species
field reference, and the plot join-table set otherwise. -/
theorem resolveFilterTables_substring_test (s : String) (hs : s ≠ "") :
    (resolveFilterTables (.str s) = .ok .treeTables ↔
      ("tree.".data <:+: s.data ∨ "species.".data <:+: s.data)) ∧
    (resolveFilterTables (.str s) = .ok .plotTables ↔
      ¬("tree.".data <:+: s.data ∨ "species.".data <:+: s.data)) := by
  have hiff := treeRegexAccepts_iff s.data
  by_cases h : treeRegexAccepts s.data = true
  · have hsub := hiff.mp h
    rw [resolveFilterTables, if_neg hs, if_pos h]
    refine ⟨⟨fun _ => hsub, fun _ => rfl⟩, ⟨fun hc => ?_, fun hc => absurd hsub hc⟩⟩
    exact absurd (Except.ok.inj hc) (by decide)
  · have hnsub : ¬("tree.".data <:+: s.data ∨ "species.".data <:+: s.data) :=
      fun hc => h (hiff.mpr hc)
    rw [resolveFilterTables, if_neg hs, if_neg h]
    refine ⟨⟨fun hc => ?_, fun hc => absurd hc hnsub⟩, ⟨fun _ => hnsub, fun _ => rfl⟩⟩
    exact absurd (Except.ok.inj hc) (by decide)

/-- C8 witness: a filter text mentioning a tree field resolves to the tree
join-table set. -/
theorem resolveFilterTables_substring_test_witness :
    ("\x7b\"tree.height\": 1\x7d" : String) ≠ "" ∧
    (resolveFilterTables (.str "\x7b\"tree.height\": 1\x7d") = .ok .treeTables ↔
      ("tree.".data <:+: "\x7b\"tree.height\": 1\x7d".data ∨
        "species.".data <:+: "\x7b\"tree.height\": 1\x7d".data)) :=
  ⟨by decide, (resolveFilterTables_substring_test "\x7b\"tree.height\": 1\x7d" (by decide)).1⟩

/-- C9: the empty predicate object passes validation, produces no filter
pairs, and the per-field clause compiles to the bare parenthesis pair. -/
theorem empty_predicate_compiles_to_parens (fieldName col : String)
    (h : fieldNameToColumnName fieldName = .ok col) :
    validatePredicate (.jobj []) = .ok () ∧
    predicateToFilterObjects (.jobj []) = .ok [] ∧
    fieldNameAndPredicateToSql fieldName (.jobj []) = .ok "()" ∧
    objectToSql [(fieldName, .jobj [])] = .ok "()" := by
  have h2 : jsIsObject (JVal.jobj []) = true := rfl
  have h3 : fieldNameAndPredicateToSql fieldName (.jobj []) = .ok "()" := by
    rw [fieldNameAndPredicateToSql, h]
    rfl
  refine ⟨rfl, rfl, h3, ?_⟩
  rw [objectToSql, mapExcept]
  simp [mapExcept, h2, h3, string_intercalate_singleton]

/-- C9 witness: an in-whitelist field with the empty predicate object. -/
theorem empty_predicate_compiles_to_parens_witness :
    fieldNameToColumnName "tree.height" = .ok "\"treemap_tree\".\"height\"" ∧
    fieldNameAndPredicateToSql "tree.height" (.jobj []) = .ok "()" ∧
    objectToSql [("tree.height", .jobj [])] = .ok "()" :=
  ⟨by rfl,
   (empty_predicate_compiles_to_parens "tree.height" "\"treemap_tree\".\"height\"" (by rfl)).2.2.1,
   (empty_predicate_compiles_to_parens "tree.height" "\"treemap_tree\".\"height\"" (by rfl)).2.2.2⟩

/-- C10: the resolver throws its error for each falsy input (`undefined`,
`null` and the empty string), while the permissive compile entry point
returns the empty string for the same inputs. -/
theorem falsy_input_contrast :
    resolveFilterTables .undef = .error nullFilterError ∧
    resolveFilterTables .null = .error nullFilterError ∧
    resolveFilterTables (.str "") = .error nullFilterError ∧
    filterStringToSql .undef = .ok "" ∧
    filterStringToSql .null = .ok "" ∧
    filterStringToSql (.str "") = .ok "" :=
  ⟨rfl, rfl, rfl, rfl, rfl, rfl⟩

end OtmTiler
